import Mathlib

/-!
# Verification of `google_voice_dialer.py`

A shallow embedding of the core of `src/google_voice_dialer.py`:

* the phone-number normalization performed inside `dial` (lines 506-518),
* the launch-strategy dispatch of `dial` (lines 540-555),
* the app-id extraction `get_google_voice_app_id` (lines 73-97),
* the registry mutations of `register_handler` (lines 167-243) and
  `unregister_handler` (lines 256-300).

Strings are modelled as `List Char`.  Python-specific primitives
(`str.strip`, `urllib.parse.unquote`, `urllib.parse.quote`, the two regular
expressions used by the script) are embedded as executable Lean functions,
each with a comment stating the modelling choices.
-/

namespace GoogleVoiceDialer

/-- Python constant `PROG_ID = "Google Voice Dialer"`. -/
def PROG_ID : String := "Google Voice Dialer"

/-- Python constant `PROG_NAME = f"{PROG_ID}"`. -/
def PROG_NAME : String := PROG_ID

/-- Python constant `PROG_DESC`. -/
def PROG_DESC : String :=
  "Google Voice tel: protocol handler. Dial phone numbers using Google Voice."

/-! ## Character predicates -/

/-- Python's `\d` character class as used in `re.sub(r"\D", "", phone)`.
Modelled as the ASCII decimal digits; Python's `\d` additionally matches
other Unicode decimal digits (category Nd), which none of the verified
properties depend on. -/
def isPyDigit (c : Char) : Bool := c.isDigit

/-- The whitespace stripped by Python's `str.strip()` (ASCII part; `strip`
also removes other Unicode space characters, not relevant here). -/
def pyIsSpace (c : Char) : Bool :=
  c = ' ' || c = '\t' || c = '\n' || c = '\r' || c = '\x0b' || c = '\x0c'

/-- A hexadecimal digit, as accepted by `urllib.parse.unquote` escapes. -/
def isHexDigitPy (c : Char) : Bool :=
  ('0' ≤ c && c ≤ '9') || ('a' ≤ c && c ≤ 'f') || ('A' ≤ c && c ≤ 'F')

/-- Numeric value of a hexadecimal digit. -/
def hexVal (c : Char) : Nat :=
  if '0' ≤ c && c ≤ '9' then c.toNat - 48
  else if 'a' ≤ c && c ≤ 'f' then c.toNat - 87
  else c.toNat - 55

/-! ## Python string primitives used by `dial` -/

/-- `l.dropWhile` from the right. -/
def dropTrailing (p : Char → Bool) (l : List Char) : List Char :=
  (l.reverse.dropWhile p).reverse

/-- Python `str.strip()`: remove leading and trailing whitespace. -/
def pyStrip (l : List Char) : List Char :=
  dropTrailing pyIsSpace (l.dropWhile pyIsSpace)

/-- `urllib.parse.unquote`, at the byte level: a `%` followed by two hex
digits becomes the character with that code; an invalid escape leaves the
`%` in place and decoding continues right after it, exactly as CPython's
segment-wise decoder does.  (CPython additionally reassembles multi-byte
UTF-8 sequences from consecutive escapes; this model keeps each decoded
byte as one character, which agrees with CPython on ASCII escapes — the
only ones the verified properties exercise.) -/
def pyUnquote : List Char → List Char
  | [] => []
  | '%' :: a :: b :: rest2 =>
    if isHexDigitPy a && isHexDigitPy b then
      Char.ofNat (16 * hexVal a + hexVal b) :: pyUnquote rest2
    else '%' :: pyUnquote (a :: b :: rest2)
  | c :: rest => c :: pyUnquote rest

/-- Characters `urllib.parse.quote` leaves unescaped with its default
`safe='/'`: ASCII letters, digits, `_.-~` and `/`. -/
def quoteSafe (c : Char) : Bool :=
  c.isAlpha || c.isDigit || c = '_' || c = '.' || c = '-' || c = '~' || c = '/'

/-- Upper-case hexadecimal digit of `n < 16`. -/
def toHexDigit (n : Nat) : Char :=
  if n < 10 then Char.ofNat (48 + n) else Char.ofNat (55 + n)

/-- `urllib.parse.quote` with the default safe set, at the byte level
(faithful for the ASCII strings the dialer encodes). -/
def pyQuote : List Char → List Char
  | [] => []
  | c :: rest =>
    (if quoteSafe c then [c]
     else ['%', toHexDigit (c.toNat / 16 % 16), toHexDigit (c.toNat % 16)])
    ++ pyQuote rest

/-! ## Scheme handling -/

/-- The characters of `"tel:"`. -/
def telScheme : List Char := "tel:".toList

/-- The characters of `"callto:"`. -/
def calltoScheme : List Char := "callto:".toList

/-- The guard of `dial`:
`phone_url.lower().startswith("tel:") or phone_url.lower().startswith("callto:")`. -/
def hasDialScheme (l : List Char) : Bool :=
  telScheme.isPrefixOf (l.map Char.toLower)
  || calltoScheme.isPrefixOf (l.map Char.toLower)

/-- `re.sub(r"^(tel|callto):", "", phone_url, flags=re.IGNORECASE)`: remove
one leading scheme token, matched case-insensitively; the remainder keeps
its original case.  The two alternatives start with different letters, so
the regex alternation is equivalent to the two ordered prefix tests. -/
def stripScheme (l : List Char) : List Char :=
  if telScheme.isPrefixOf (l.map Char.toLower) then l.drop 4
  else if calltoScheme.isPrefixOf (l.map Char.toLower) then l.drop 7
  else l

/-- `phone.startswith("+")`. -/
def startsWithPlus : List Char → Bool
  | [] => false
  | c :: _ => c = '+'

/-! ## The normalizer inside `dial` (lines 514-518)

```python
phone = re.sub(r"^(tel|callto):", "", phone_url, flags=re.IGNORECASE).strip()
phone = urllib.parse.unquote(phone)
plus = "+" if phone.startswith("+") else ""
digits = re.sub(r"\D", "", phone)
phone = plus + digits
```
-/

/-- The decoded text `dial` filters: scheme stripped, whitespace stripped,
percent-decoded. -/
def decodedText (phone_url : List Char) : List Char :=
  pyUnquote (pyStrip (stripScheme phone_url))

/-- The phone-number normalization of `dial`, lines 514-518. -/
def normalizePhone (phone_url : List Char) : List Char :=
  let phone := decodedText phone_url
  (if startsWithPlus phone then ['+'] else []) ++ phone.filter isPyDigit

/-- The `NormalizedNumber` shape: at most one leading `+`, then only
decimal digits. -/
def isNormalizedNumber : List Char → Bool
  | [] => true
  | c :: rest => if c = '+' then rest.all isPyDigit else (c :: rest).all isPyDigit

/-! ## `get_google_voice_app_id` (lines 73-97)

```python
match = re.search(r"--app-id=([a-z]{32})", shortcut.Arguments)
if match:
    return match.group(1)
```
-/

/-- A lower-case ASCII letter, the character class `[a-z]` of the app-id
regular expression. -/
def isLowerAlpha (c : Char) : Bool := 'a' ≤ c && c ≤ 'z'

/-- The literal part of the app-id pattern, `--app-id=`. -/
def appIdFlag : List Char := "--app-id=".toList

/-- One attempt of the regular expression `--app-id=([a-z]{32})` at the
start of `l`: the literal flag followed by exactly 32 characters from
`[a-z]` (a longer lower-case run matches on its first 32 characters, as
the bounded repetition does). -/
def matchAppIdAt (l : List Char) : Option (List Char) :=
  if appIdFlag.isPrefixOf l then
    if ((l.drop 9).take 32).length = 32 && ((l.drop 9).take 32).all isLowerAlpha
    then some ((l.drop 9).take 32) else none
  else none

/-- `re.search(r"--app-id=([a-z]{32})", args)`: the leftmost match, found
by trying the pattern at every position from the left. -/
def searchAppId : List Char → Option (List Char)
  | [] => none
  | c :: cs =>
    match matchAppIdAt (c :: cs) with
    | some t => some t
    | none => searchAppId cs

/-- The `Arguments` string of the Google Voice shortcut, as read by
`win32com`; `none` models `find_google_voice_shortcut()` returning `None`
(or the COM dispatch failing, which the `except` swallows into `None`). -/
structure Shortcut where
  arguments : List Char
deriving DecidableEq

/-- `get_google_voice_app_id()` (lines 73-97).  `comAvailable` models
`com_client is not None`; the function prints and returns `None` when
pywin32 is missing, when no shortcut is found, when the shortcut's
argument string is empty (Python's falsy test `if not shortcut.Arguments`),
and when the regular expression does not match. -/
def get_google_voice_app_id (comAvailable : Bool) (shortcut : Option Shortcut) :
    Option (List Char) :=
  if comAvailable then
    match shortcut with
    | none => none
    | some sc => if sc.arguments.isEmpty then none else searchAppId sc.arguments
  else none

/-- `args` contains a match of `--app-id=([a-z]{32})`: the flag literal
followed by 32 lower-case letters. -/
def HasLowerToken (args : List Char) : Prop :=
  ∃ l t r, args = l ++ appIdFlag ++ t ++ r ∧ t.length = 32 ∧ t.all isLowerAlpha = true

/-- A lower-case ASCII letter or an ASCII digit — "alphanumeric", the
character class the specification ascribes to the app-id token. -/
def isLowerAlnum (c : Char) : Bool := isLowerAlpha c || c.isDigit

/-! ## The dial dispatch (lines 506-555) -/

/-- The three launch strategies of `dial`, with the arguments each passes
to the process it starts. -/
inductive LaunchStrategy where
  /-- `subprocess.run([proxy_path, "--app-id=...", "--app-launch-url-for-shortcuts-menu-item=..."])`. -/
  | proxyApp (proxyPath appId url : List Char)
  /-- `subprocess.run([chrome_path, "--app=..."])`. -/
  | chromeApp (chromePath url : List Char)
  /-- `webbrowser.open(gv_url)`: the OS default URL handler. -/
  | defaultOpen (url : List Char)
deriving DecidableEq

/-- The environment `dial` probes: `com_client` availability and the
shortcut (inputs of `get_google_voice_app_id`), and the two results of
`get_chrome_paths()`.  `get_chrome_paths` itself only reads the registry,
the filesystem and `PATH`, swallowing every failure into `None`; its
results are therefore modelled as inputs.  A found path is a nonempty
string, so Python's truthiness tests coincide with `Option.isSome`. -/
structure DialEnv where
  comAvailable : Bool
  shortcut : Option Shortcut
  proxy_path : Option (List Char)
  chrome_path : Option (List Char)
deriving DecidableEq

/-- The observable effects of one call to `dial` on a valid URI: one line
`"<timestamp> - <logged>"` appended to the log (the timestamp is
environmental and not modelled; the log write may also fail, which line
530-531 swallow), and exactly one launch of `strategy`. -/
structure DialEffects where
  logged : List Char
  url : List Char
  strategy : LaunchStrategy
deriving DecidableEq

/-- The fixed part of the Google Voice dialing URL,
`https://voice.google.com/u/0/calls?a=nc,` (line 537). -/
def gvUrlBase : List Char := "https://voice.google.com/u/0/calls?a=nc,".toList

/-- `dial(phone_url)` (lines 506-555).  `none` means the guard on the
scheme failed: the function returned before writing the log and before
launching anything.  `some e` records the appended number, the built URL
and the one strategy invoked. -/
def dial (env : DialEnv) (phone_url : List Char) : Option DialEffects :=
  if hasDialScheme phone_url then
    let phone := normalizePhone phone_url
    let gv := gvUrlBase ++ pyQuote phone
    let app_id := get_google_voice_app_id env.comAvailable env.shortcut
    some { logged := phone
           url := gv
           strategy :=
             match env.proxy_path, app_id with
             | some p, some a => .proxyApp p a gv
             | _, _ =>
               match env.chrome_path with
               | some c => .chromeApp c gv
               | none => .defaultOpen gv }
  else none

/-- The app id `dial` computes from the environment. -/
def appIdOf (env : DialEnv) : Option (List Char) :=
  get_google_voice_app_id env.comAvailable env.shortcut

/-! ## The association-store model

A Windows registry restricted to what `register_handler` and
`unregister_handler` touch (everything is under `HKEY_CURRENT_USER`).
A key is addressed by its path, a list of path components; its observable
contents are value slots addressed by an optional value name (`none` is
the default value).  Key and value names are compared literally: both
functions use fixed, consistently-cased names, so the registry's case
insensitivity never shows. -/

/-- A registry key path: path components under `HKEY_CURRENT_USER`. -/
abbrev RegPath := List String

/-- The observable association store. -/
structure Registry where
  /-- Whether the key at a path exists. -/
  keyLive : RegPath → Bool
  /-- The string data of a value slot (`none` = value absent). -/
  val : RegPath → Option String → Option String

/-- `winreg.CreateKeyEx`: create-or-open the key, creating every missing
ancestor; values are untouched. -/
def createKey (p : RegPath) (r : Registry) : Registry :=
  { r with keyLive := fun q => r.keyLive q || q.isPrefixOf p }

/-- `winreg.SetValueEx` with `REG_SZ` data: upsert one value slot. -/
def setValue (p : RegPath) (n : Option String) (v : String) (r : Registry) : Registry :=
  { r with val := fun q m => if q = p ∧ m = n then some v else r.val q m }

/-- The net effect of `delete_key_recursive(root, path)` (lines 260-272):
the key and every descendant are removed, values with them; a missing key
is tolerated (`OSError`/`FileNotFoundError` are passed over), so on a path
with no live keys this is a no-op. -/
def deleteKeyRecursive (p : RegPath) (r : Registry) : Registry :=
  { keyLive := fun q => if p.isPrefixOf q then false else r.keyLive q
    val := fun q m => if p.isPrefixOf q then none else r.val q m }

/-- Lines 281-294: open `Software\RegisteredApplications` and delete the
value named `n`; if the key cannot be opened (`OSError`) or the value does
not exist (`FileNotFoundError`), silently continue. -/
def deleteValueIfKeyExists (p : RegPath) (n : String) (r : Registry) : Registry :=
  { r with
    val := fun q m =>
      if r.keyLive p = true ∧ q = p ∧ m = some n then none else r.val q m }

/-- `Software\Classes\<PROG_ID>`, the class (ProgId) entry. -/
def classesPath : RegPath := ["Software", "Classes", PROG_ID]

/-- `Software\<PROG_ID>`, the subtree holding the capabilities entry. -/
def appSoftwarePath : RegPath := ["Software", PROG_ID]

/-- `Software\<PROG_ID>\Capabilities`. -/
def capabilitiesPath : RegPath := ["Software", PROG_ID, "Capabilities"]

/-- `Software\<PROG_ID>\Capabilities\URLAssociations`. -/
def urlAssocPath : RegPath := ["Software", PROG_ID, "Capabilities", "URLAssociations"]

/-- `Software\RegisteredApplications`. -/
def registeredAppsPath : RegPath := ["Software", "RegisteredApplications"]

/-- `register_handler` (lines 167-243), as its sequence of registry
writes.  The running path and the runner token (lines 171-184 compute
them from `sys.executable` and `__file__`) are parameters; every write is
a create-or-open followed by value upserts, in source order. -/
def register_handler (runningPath runner : String) (r : Registry) : Registry :=
  let r := createKey classesPath r
  let r := setValue classesPath none ("URL:" ++ PROG_NAME) r
  let r := setValue classesPath (some "URL Protocol") "" r
  let r := createKey (classesPath ++ ["DefaultIcon"]) r
  let r := setValue (classesPath ++ ["DefaultIcon"]) none (runningPath ++ ",0") r
  let r := createKey (classesPath ++ ["shell", "open", "command"]) r
  let r := setValue (classesPath ++ ["shell", "open", "command"]) none
    (runner ++ "\"" ++ runningPath ++ "\" \"%1\"") r
  let r := createKey capabilitiesPath r
  let r := setValue capabilitiesPath (some "ApplicationName") PROG_NAME r
  let r := setValue capabilitiesPath (some "ApplicationDescription") PROG_DESC r
  let r := setValue capabilitiesPath (some "ApplicationIcon") (runningPath ++ ",0") r
  let r := createKey urlAssocPath r
  let r := setValue urlAssocPath (some "tel") PROG_ID r
  let r := setValue urlAssocPath (some "callto") PROG_ID r
  let r := createKey registeredAppsPath r
  let r := setValue registeredAppsPath (some PROG_NAME)
    ("Software\\" ++ PROG_ID ++ "\\Capabilities") r
  r

/-- `unregister_handler(prog_id, prog_name)` (lines 256-300): delete the
class subtree, delete the `Software\<prog_id>` subtree, and remove the
`RegisteredApplications` value, each step tolerating absence. -/
def unregister_handler (progId progName : String) (r : Registry) : Registry :=
  let r := deleteKeyRecursive ["Software", "Classes", progId] r
  let r := deleteKeyRecursive ["Software", progId] r
  let r := deleteValueIfKeyExists registeredAppsPath progName r
  r

/-- A store with no association entries for `progId`/`progName`: the class
subtree and the `Software\<progId>` subtree hold no keys and no values,
and the `RegisteredApplications` pointer value is absent. -/
def CleanFor (progId progName : String) (r : Registry) : Prop :=
  (∀ q, (["Software", "Classes", progId].isPrefixOf q
          || ["Software", progId].isPrefixOf q) = true →
      r.keyLive q = false ∧ ∀ m, r.val q m = none)
  ∧ r.val registeredAppsPath (some progName) = none

/-- The registry with no keys and no values. -/
def emptyRegistry : Registry :=
  { keyLive := fun _ => false, val := fun _ _ => none }

/-! ## Helper lemmas -/

theorem matchAppIdAt_sound (l t : List Char) (h : matchAppIdAt l = some t) :
    ∃ post, l = appIdFlag ++ t ++ post ∧ t.length = 32 ∧ t.all isLowerAlpha = true := by
  unfold matchAppIdAt at h
  split at h
  case isTrue hpre =>
    obtain ⟨rest', hrest⟩ := List.isPrefixOf_iff_prefix.mp hpre
    split at h
    case isTrue hcond =>
      obtain ⟨h1, h2⟩ := (Bool.and_eq_true _ _).mp hcond
      have ht : t = (l.drop 9).take 32 := by
        injection h with h; exact h.symm
      have hdrop : l.drop 9 = rest' := by
        rw [← hrest, show (9 : Nat) = appIdFlag.length from rfl, List.drop_left]
      have hlen : t.length = 32 := by
        rw [ht]; exact of_decide_eq_true h1
      refine ⟨rest'.drop 32, ?_, hlen, ?_⟩
      · rw [← hrest, List.append_assoc]
        congr 1
        rw [ht, hdrop, List.take_append_drop]
      · rw [ht]; exact h2
    case isFalse => exact absurd h (by simp)
  case isFalse => exact absurd h (by simp)

theorem searchAppId_sound (l : List Char) :
    ∀ t, searchAppId l = some t →
      ∃ pre post, l = pre ++ appIdFlag ++ t ++ post
        ∧ t.length = 32 ∧ t.all isLowerAlpha = true := by
  induction l with
  | nil => intro t h; simp [searchAppId] at h
  | cons c cs ih =>
    intro t h
    rcases hm : matchAppIdAt (c :: cs) with _ | t'
    · have h2 : searchAppId cs = some t := by
        have hx := h; simp only [searchAppId, hm] at hx; exact hx
      obtain ⟨pre, post, heq, hlen, hall⟩ := ih t h2
      exact ⟨c :: pre, post, by simp [heq], hlen, hall⟩
    · have ht : t' = t := by
        have hx := h; simp only [searchAppId, hm] at hx; exact Option.some.inj hx
      subst ht
      obtain ⟨post, heq, hlen, hall⟩ := matchAppIdAt_sound _ _ hm
      exact ⟨[], post, by simpa using heq, hlen, hall⟩

theorem matchAppIdAt_complete (t post : List Char) (hlen : t.length = 32)
    (hall : t.all isLowerAlpha = true) :
    matchAppIdAt (appIdFlag ++ (t ++ post)) = some t := by
  unfold matchAppIdAt
  rw [if_pos (List.isPrefixOf_iff_prefix.mpr ⟨t ++ post, rfl⟩)]
  have hdrop : (appIdFlag ++ (t ++ post)).drop 9 = t ++ post := by
    rw [show (9 : Nat) = appIdFlag.length from rfl, List.drop_left]
  have htake : (t ++ post).take 32 = t := by rw [← hlen, List.take_left]
  rw [hdrop, htake, hlen, hall]
  simp

theorem searchAppId_complete (pre : List Char) :
    ∀ t post, t.length = 32 → t.all isLowerAlpha = true →
      (searchAppId (pre ++ (appIdFlag ++ (t ++ post)))).isSome = true := by
  induction pre with
  | nil =>
    intro t post hlen hall
    have hm := matchAppIdAt_complete t post hlen hall
    rw [List.nil_append]
    rcases hcons : appIdFlag ++ (t ++ post) with _ | ⟨c, cs⟩
    · exact absurd hcons (by simp [appIdFlag])
    · rw [hcons] at hm
      simp [searchAppId, hm]
  | cons c pre' ih =>
    intro t post hlen hall
    rw [List.cons_append]
    rcases hm : matchAppIdAt (c :: (pre' ++ (appIdFlag ++ (t ++ post)))) with _ | t'
    · simp only [searchAppId, hm]
      exact ih t post hlen hall
    · simp only [searchAppId, hm, Option.isSome]

theorem isPyDigit_not_space {c : Char} (h : isPyDigit c = true) : pyIsSpace c = false := by
  simp only [pyIsSpace, Bool.or_eq_false_iff, decide_eq_false_iff_not]
  repeat' apply And.intro
  all_goals rintro rfl; simp [isPyDigit] at h

theorem isPyDigit_ne_percent {c : Char} (h : isPyDigit c = true) : c ≠ '%' := by
  rintro rfl; simp [isPyDigit] at h

theorem isPyDigit_ne_plus {c : Char} (h : isPyDigit c = true) : c ≠ '+' := by
  rintro rfl; simp [isPyDigit] at h

theorem dropWhile_eq_self_of_not {p : Char → Bool} {l : List Char}
    (h : ∀ c ∈ l, p c = false) : l.dropWhile p = l := by
  cases l with
  | nil => rfl
  | cons c cs => rw [List.dropWhile_cons, h c (by simp)]; simp

theorem pyStrip_eq_self {l : List Char} (h : ∀ c ∈ l, pyIsSpace c = false) :
    pyStrip l = l := by
  unfold pyStrip dropTrailing
  rw [dropWhile_eq_self_of_not h, dropWhile_eq_self_of_not (by simpa using h),
    List.reverse_reverse]

theorem pyUnquote_cons_of_ne {c : Char} {cs : List Char} (hc : c ≠ '%') :
    pyUnquote (c :: cs) = c :: pyUnquote cs := by
  rw [pyUnquote.eq_def]
  split
  · simp_all
  · next heq => exact absurd (List.cons.inj heq).1 hc
  · next heq =>
      obtain ⟨h1, h2⟩ := List.cons.inj heq
      rw [← h1, ← h2]

theorem pyUnquote_eq_self {l : List Char} (h : ∀ c ∈ l, c ≠ '%') :
    pyUnquote l = l := by
  induction l with
  | nil => rfl
  | cons c cs ih =>
    rw [pyUnquote_cons_of_ne (h c (by simp)), ih (fun d hd => h d (by simp [hd]))]

theorem stripScheme_tel_append (l : List Char) : stripScheme (telScheme ++ l) = l := by
  have hlow : (telScheme ++ l).map Char.toLower = telScheme ++ l.map Char.toLower := by
    rw [List.map_append]
    congr 1
  have hpre : telScheme.isPrefixOf ((telScheme ++ l).map Char.toLower) = true := by
    rw [hlow]
    exact List.isPrefixOf_iff_prefix.mpr ⟨_, rfl⟩
  rw [stripScheme, if_pos hpre, show (4 : Nat) = telScheme.length from rfl,
    List.drop_left]

theorem mem_normalizePhone {s : List Char} {c : Char} (h : c ∈ normalizePhone s) :
    c = '+' ∨ isPyDigit c = true := by
  unfold normalizePhone at h
  rcases List.mem_append.mp h with h1 | h2
  · left
    by_cases hp : startsWithPlus (decodedText s) = true
    · simp [hp] at h1; exact h1
    · simp [Bool.not_eq_true] at hp; simp [hp] at h1
  · right; exact (List.mem_filter.mp h2).2

theorem filter_all_digits {l : List Char} (h : ∀ c ∈ l, isPyDigit c = true) :
    l.filter isPyDigit = l := List.filter_eq_self.mpr h

theorem normalize_idem_aux (s : List Char) :
    normalizePhone (telScheme ++ normalizePhone s) = normalizePhone s := by
  have hmem := fun c hc => mem_normalizePhone (s := s) (c := c) hc
  have hnospace : ∀ c ∈ normalizePhone s, pyIsSpace c = false := by
    intro c hc
    rcases hmem c hc with h1 | h2
    · subst h1; decide
    · exact isPyDigit_not_space h2
  have hnopct : ∀ c ∈ normalizePhone s, c ≠ '%' := by
    intro c hc
    rcases hmem c hc with h1 | h2
    · subst h1; decide
    · exact isPyDigit_ne_percent h2
  have hdec : decodedText (telScheme ++ normalizePhone s) = normalizePhone s := by
    unfold decodedText
    rw [stripScheme_tel_append, pyStrip_eq_self hnospace, pyUnquote_eq_self hnopct]
  rw [normalizePhone, hdec]
  by_cases hp : startsWithPlus (decodedText s) = true
  · have hns : normalizePhone s = '+' :: (decodedText s).filter isPyDigit := by
      rw [normalizePhone, hp]; rfl
    rw [hns]
    have hsw : startsWithPlus ('+' :: (decodedText s).filter isPyDigit) = true := by
      simp [startsWithPlus]
    rw [hsw]
    simp only [List.filter_cons]
    rw [show isPyDigit '+' = false from by decide]
    simp only [Bool.false_eq_true, if_false]
    rw [filter_all_digits (fun c hc => (List.mem_filter.mp hc).2)]
    rfl
  · have hp2 : startsWithPlus (decodedText s) = false := by
      simpa [Bool.not_eq_true] using hp
    have hns : normalizePhone s = (decodedText s).filter isPyDigit := by
      rw [normalizePhone, hp2]; rfl
    rw [hns]
    rcases hd : (decodedText s).filter isPyDigit with _ | ⟨c, cs⟩
    · rfl
    · have hcdig : isPyDigit c = true := by
        have hcm : c ∈ (decodedText s).filter isPyDigit := by rw [hd]; simp
        exact (List.mem_filter.mp hcm).2
      have hsw : startsWithPlus (c :: cs) = false := by
        simp [startsWithPlus]
        exact isPyDigit_ne_plus hcdig
      rw [hsw]
      rw [← hd, filter_all_digits (fun d hdm => (List.mem_filter.mp hdm).2)]
      rfl

/-! ## The claims -/

/-- C5: the normalization inside `dial` strips the scheme token
case-insensitively, percent-decodes, preserves a single leading `+` and
removes every other non-digit: `Normalize("tel:+1 (555) 123-4567")` is
`"+15551234567"`, `Normalize("TEL:0000")` is `"0000"` (case-insensitive
scheme match), and `Normalize("tel:")` is `""`. -/
theorem normalize_examples :
    normalizePhone "tel:+1 (555) 123-4567".toList = "+15551234567".toList
    ∧ normalizePhone "TEL:0000".toList = "0000".toList
    ∧ normalizePhone "tel:".toList = "".toList :=
  ⟨by decide, by decide, by decide⟩

/-- C1, counterexample: `dial` does not truncate at the first `,` or `#`.
Normalizing `"callto:555.123.4567,1234#"` yields `"55512345671234"` — the
digits after the comma are kept — and not the `"5551234567"` the claim
asserts. -/
theorem normalize_no_truncation_cex :
    normalizePhone "callto:555.123.4567,1234#".toList = "55512345671234".toList
    ∧ ¬ normalizePhone "callto:555.123.4567,1234#".toList = "5551234567".toList :=
  ⟨by decide, by decide⟩

/-- C1, amended: the normalization in `dial` performs no truncation at
`,` or `#`; those characters are removed like every other non-digit and
the digits after them are kept, so the normalized number carries exactly
the digits of the whole decoded text and
`Normalize("callto:555.123.4567,1234#") = "55512345671234"`. -/
theorem normalize_no_truncation :
    normalizePhone "callto:555.123.4567,1234#".toList = "55512345671234".toList
    ∧ ∀ s : List Char,
        (normalizePhone s).filter isPyDigit = (decodedText s).filter isPyDigit := by
  refine ⟨by decide, fun s => ?_⟩
  unfold normalizePhone
  rw [List.filter_append]
  have h2 : ((decodedText s).filter isPyDigit).filter isPyDigit
      = (decodedText s).filter isPyDigit :=
    filter_all_digits (fun c hc => (List.mem_filter.mp hc).2)
  by_cases hp : startsWithPlus (decodedText s) = true
  · rw [hp]
    simp only [if_true]
    rw [show List.filter isPyDigit ['+'] = [] from by decide, h2, List.nil_append]
  · rw [show startsWithPlus (decodedText s) = false from by
      simpa [Bool.not_eq_true] using hp]
    simp only [Bool.false_eq_true, if_false, List.filter_nil, List.nil_append]
    exact h2

/-- C9: for every input, the number `dial` normalizes satisfies the
`NormalizedNumber` invariant — at most one leading `+`, then only decimal
digits. -/
theorem normalize_invariant :
    ∀ s : List Char, isNormalizedNumber (normalizePhone s) = true := by
  intro s
  have hall : ∀ c ∈ (decodedText s).filter isPyDigit, isPyDigit c = true :=
    fun c hc => (List.mem_filter.mp hc).2
  by_cases hp : startsWithPlus (decodedText s) = true
  · have hns : normalizePhone s = '+' :: (decodedText s).filter isPyDigit := by
      rw [normalizePhone, hp]; rfl
    rw [hns, isNormalizedNumber]
    simp [List.all_eq_true, List.mem_filter]
  · have hns : normalizePhone s = (decodedText s).filter isPyDigit := by
      rw [normalizePhone, show startsWithPlus (decodedText s) = false from by
        simpa [Bool.not_eq_true] using hp]
      rfl
    rw [hns]
    rcases hd : (decodedText s).filter isPyDigit with _ | ⟨c, cs⟩
    · rfl
    · have hcdig : isPyDigit c = true := by
        have hcm : c ∈ (decodedText s).filter isPyDigit := by rw [hd]; simp
        exact (List.mem_filter.mp hcm).2
      rw [isNormalizedNumber, if_neg (by simpa using isPyDigit_ne_plus hcdig)]
      rw [← hd]
      simp [List.all_eq_true, List.mem_filter]

/-- C10: normalization is idempotent through the scheme: for any input
with a recognized scheme, prefixing the normalized number with `tel:` and
normalizing again reproduces it. -/
theorem normalize_idem_through_scheme (s : List Char)
    (h : hasDialScheme s = true) :
    normalizePhone (telScheme ++ normalizePhone s) = normalizePhone s :=
  normalize_idem_aux s

/-- C10, witness at `"tel:+1 23"`. -/
theorem normalize_idem_through_scheme_witness :
    normalizePhone (telScheme ++ normalizePhone "tel:+1 23".toList)
      = normalizePhone "tel:+1 23".toList :=
  normalize_idem_through_scheme "tel:+1 23".toList (by decide)

/-- The arguments string of a shortcut whose token after `--app-id=` is 32
characters of lower-case letters and digits (so "alphanumeric", but not
purely alphabetic). -/
def alnumArgs : List Char := "--app-id=abcdefghijklmnopqrstuvwxyz012345".toList

/-- C8, counterexample: the claim says a 32-character lower-case
*alphanumeric* token after the flag is returned, but the code's pattern is
`[a-z]{32}` — letters only.  On arguments carrying the 32-character
alphanumeric token `abcdefghijklmnopqrstuvwxyz012345` (which contains
digits), `get_google_voice_app_id` returns nothing. -/
theorem app_id_alnum_cex :
    get_google_voice_app_id true (some ⟨alnumArgs⟩) = none
    ∧ (∃ l t r, alnumArgs = l ++ appIdFlag ++ t ++ r
        ∧ t.length = 32 ∧ t.all isLowerAlnum = true) :=
  ⟨by decide,
   ⟨[], "abcdefghijklmnopqrstuvwxyz012345".toList, [], by decide, by decide, by decide⟩⟩

/-- C8, amended: `get_google_voice_app_id` returns an app id exactly when
the shortcut's argument string contains the flag `--app-id=` followed by
32 lower-case *letters* (`[a-z]`, digits excluded); any returned token is
such a 32-letter token occurring after the flag; and it returns nothing
when pywin32 is unavailable, the shortcut is absent, or the argument
string is empty. -/
theorem app_id_token_characterization :
    ∀ args : List Char,
      get_google_voice_app_id false (some ⟨args⟩) = none
      ∧ get_google_voice_app_id true none = none
      ∧ get_google_voice_app_id true (some ⟨[]⟩) = none
      ∧ ((get_google_voice_app_id true (some ⟨args⟩)).isSome = true
          ↔ HasLowerToken args)
      ∧ (∀ t, get_google_voice_app_id true (some ⟨args⟩) = some t →
          ∃ l r, args = l ++ appIdFlag ++ t ++ r
            ∧ t.length = 32 ∧ t.all isLowerAlpha = true) := by
  intro args
  refine ⟨rfl, rfl, rfl, ⟨?_, ?_⟩, ?_⟩
  · intro h
    by_cases he : args.isEmpty = true
    · rw [show get_google_voice_app_id true (some ⟨args⟩) = none from by
        simp [get_google_voice_app_id, he]] at h
      simp at h
    · have hs : get_google_voice_app_id true (some ⟨args⟩) = searchAppId args := by
        simp [get_google_voice_app_id, he]
      rw [hs] at h
      obtain ⟨t, ht⟩ := Option.isSome_iff_exists.mp h
      obtain ⟨pre, post, heq, hlen, hall⟩ := searchAppId_sound args t ht
      exact ⟨pre, t, post, heq, hlen, hall⟩
  · rintro ⟨l, t, r, heq, hlen, hall⟩
    have hne : args.isEmpty = false := by
      have hlenargs : args.length = l.length + (9 + (32 + r.length)) := by
        rw [heq]
        simp [List.length_append, appIdFlag, hlen]
        omega
      rw [List.isEmpty_eq_false_iff_exists_mem]
      rcases args with _ | ⟨c, cs⟩
      · exact absurd hlenargs (by simp; omega)
      · exact ⟨c, by simp⟩
    have hs : get_google_voice_app_id true (some ⟨args⟩) = searchAppId args := by
      simp [get_google_voice_app_id, hne]
    rw [hs, heq, List.append_assoc, List.append_assoc]
    exact searchAppId_complete l t r hlen hall
  · intro t ht
    by_cases he : args.isEmpty = true
    · rw [show get_google_voice_app_id true (some ⟨args⟩) = none from by
        simp [get_google_voice_app_id, he]] at ht
      exact absurd ht (by simp)
    · have hs : get_google_voice_app_id true (some ⟨args⟩) = searchAppId args := by
        simp [get_google_voice_app_id, he]
      rw [hs] at ht
      obtain ⟨pre, post, heq, hlen, hall⟩ := searchAppId_sound args t ht
      exact ⟨pre, post, heq, hlen, hall⟩

/-- C2: for every combination of discovery results, a dial of a valid URI
invokes exactly one strategy, resolved in strict priority order: the
Chrome proxy launcher whenever a proxy path and an app id are both found,
regardless of the browser path; Chrome with the `--app` flag when that
pair is unavailable but a Chrome path is found; the OS default URL
handler otherwise. -/
theorem dial_strategy_priority (env : DialEnv) (url : List Char)
    (h : hasDialScheme url = true) :
    ∃ e, dial env url = some e
      ∧ (∀ p a, env.proxy_path = some p → appIdOf env = some a →
          e.strategy = .proxyApp p a e.url)
      ∧ (∀ c, (env.proxy_path = none ∨ appIdOf env = none) →
          env.chrome_path = some c → e.strategy = .chromeApp c e.url)
      ∧ ((env.proxy_path = none ∨ appIdOf env = none) → env.chrome_path = none →
          e.strategy = .defaultOpen e.url) := by
  rw [dial, if_pos h]
  refine ⟨_, rfl, ?_, ?_, ?_⟩
  · intro p a hp ha
    rw [show get_google_voice_app_id env.comAvailable env.shortcut = appIdOf env
      from rfl, hp, ha]
  · intro c hcombo hc
    rcases hcombo with hp | ha
    · rw [show get_google_voice_app_id env.comAvailable env.shortcut = appIdOf env
        from rfl, hp, hc]
    · rw [show get_google_voice_app_id env.comAvailable env.shortcut = appIdOf env
        from rfl, ha, hc]
      rcases env.proxy_path with _ | p <;> rfl
  · intro hcombo hc
    rcases hcombo with hp | ha
    · rw [show get_google_voice_app_id env.comAvailable env.shortcut = appIdOf env
        from rfl, hp, hc]
    · rw [show get_google_voice_app_id env.comAvailable env.shortcut = appIdOf env
        from rfl, ha, hc]
      rcases env.proxy_path with _ | p <;> rfl

/-- An environment in which everything is discovered: pywin32 present, a
shortcut carrying a 32-letter app id, and both Chrome paths found. -/
def fullEnv : DialEnv :=
  { comAvailable := true
    shortcut := some ⟨"--app-id=abcdefghijklmnopqrstuvwxyzabcdef".toList⟩
    proxy_path := some "C:/chrome_proxy.exe".toList
    chrome_path := some "C:/chrome.exe".toList }

/-- C2, witness: the priority resolution at a concrete environment and
the URI `tel:123`. -/
theorem dial_strategy_priority_witness :
    ∃ e, dial fullEnv "tel:123".toList = some e
      ∧ (∀ p a, fullEnv.proxy_path = some p → appIdOf fullEnv = some a →
          e.strategy = .proxyApp p a e.url)
      ∧ (∀ c, (fullEnv.proxy_path = none ∨ appIdOf fullEnv = none) →
          fullEnv.chrome_path = some c → e.strategy = .chromeApp c e.url)
      ∧ ((fullEnv.proxy_path = none ∨ appIdOf fullEnv = none) →
          fullEnv.chrome_path = none → e.strategy = .defaultOpen e.url) :=
  dial_strategy_priority fullEnv "tel:123".toList (by decide)

/-- C7: on an input that does not case-insensitively start with `tel:` or
`callto:`, `dial` is a silent no-op — no log entry and no launch. -/
theorem dial_rejects_other_schemes (env : DialEnv) (url : List Char)
    (h : hasDialScheme url = false) : dial env url = none := by
  rw [dial, if_neg]
  rw [h]
  simp

/-- C7, witness at `http://example.com`. -/
theorem dial_rejects_other_schemes_witness :
    dial fullEnv "http://example.com".toList = none :=
  dial_rejects_other_schemes fullEnv "http://example.com".toList (by decide)

/-! ## Registry lemmas: the net observable effect of register and
unregister, read off the write sequences by reflexivity. -/

theorem register_keyLive (rp rn : String) (r : Registry) (q : RegPath) :
    (register_handler rp rn r).keyLive q
      = (r.keyLive q || q.isPrefixOf classesPath
          || q.isPrefixOf (classesPath ++ ["DefaultIcon"])
          || q.isPrefixOf (classesPath ++ ["shell", "open", "command"])
          || q.isPrefixOf capabilitiesPath
          || q.isPrefixOf urlAssocPath
          || q.isPrefixOf registeredAppsPath) := rfl

theorem register_val (rp rn : String) (r : Registry) (q : RegPath) (m : Option String) :
    (register_handler rp rn r).val q m
      = (if q = registeredAppsPath ∧ m = some PROG_NAME
          then some ("Software\\" ++ PROG_ID ++ "\\Capabilities")
         else if q = urlAssocPath ∧ m = some "callto" then some PROG_ID
         else if q = urlAssocPath ∧ m = some "tel" then some PROG_ID
         else if q = capabilitiesPath ∧ m = some "ApplicationIcon" then some (rp ++ ",0")
         else if q = capabilitiesPath ∧ m = some "ApplicationDescription" then some PROG_DESC
         else if q = capabilitiesPath ∧ m = some "ApplicationName" then some PROG_NAME
         else if q = classesPath ++ ["shell", "open", "command"] ∧ m = none
          then some (rn ++ "\"" ++ rp ++ "\" \"%1\"")
         else if q = classesPath ++ ["DefaultIcon"] ∧ m = none then some (rp ++ ",0")
         else if q = classesPath ∧ m = some "URL Protocol" then some ""
         else if q = classesPath ∧ m = none then some ("URL:" ++ PROG_NAME)
         else r.val q m) := rfl

theorem unregister_keyLive (pid pn : String) (r : Registry) (q : RegPath) :
    (unregister_handler pid pn r).keyLive q
      = (if (["Software", pid] : RegPath).isPrefixOf q then false
         else if (["Software", "Classes", pid] : RegPath).isPrefixOf q then false
         else r.keyLive q) := rfl

theorem unregister_val (pid pn : String) (r : Registry) (q : RegPath) (m : Option String) :
    (unregister_handler pid pn r).val q m
      = (if (if (["Software", pid] : RegPath).isPrefixOf registeredAppsPath then false
             else if (["Software", "Classes", pid] : RegPath).isPrefixOf registeredAppsPath
             then false
             else r.keyLive registeredAppsPath) = true
            ∧ q = registeredAppsPath ∧ m = some pn then none
         else if (["Software", pid] : RegPath).isPrefixOf q then none
         else if (["Software", "Classes", pid] : RegPath).isPrefixOf q then none
         else r.val q m) := rfl

theorem cap_pref_trans {p : RegPath} (h : capabilitiesPath.isPrefixOf p = true) :
    appSoftwarePath.isPrefixOf p = true := by
  rw [List.isPrefixOf_iff_prefix] at h ⊢
  exact List.IsPrefix.trans ⟨["Capabilities"], rfl⟩ h

set_option maxHeartbeats 2000000 in
/-- C4: `register_handler` is idempotent — every write is a
create-or-overwrite upsert, so running it twice from any starting store
leaves exactly the observable state one run leaves: the same keys exist
and every value slot holds the same data. -/
theorem register_idempotent (rp rn : String) (r : Registry) (q : RegPath)
    (m : Option String) :
    (register_handler rp rn (register_handler rp rn r)).keyLive q
      = (register_handler rp rn r).keyLive q
    ∧ (register_handler rp rn (register_handler rp rn r)).val q m
      = (register_handler rp rn r).val q m := by
  constructor
  · rw [register_keyLive, register_keyLive]
    cases r.keyLive q <;>
      cases q.isPrefixOf classesPath <;>
      cases q.isPrefixOf (classesPath ++ ["DefaultIcon"]) <;>
      cases q.isPrefixOf (classesPath ++ ["shell", "open", "command"]) <;>
      cases q.isPrefixOf capabilitiesPath <;>
      cases q.isPrefixOf urlAssocPath <;>
      cases q.isPrefixOf registeredAppsPath <;>
      rfl
  · rw [register_val, register_val]
    split_ifs <;> rfl

/-- C3: `register_handler` followed immediately by `unregister_handler`
leaves no residual association entries, from any starting store: every
key under the class entry `Software\Classes\<PROG_ID>` and under the
capabilities entry `Software\<PROG_ID>\Capabilities` is gone, with all
its values, and the `RegisteredApplications` pointer value is absent. -/
theorem register_unregister_roundtrip (rp rn : String) (r : Registry) (p : RegPath)
    (m : Option String) :
    ((classesPath.isPrefixOf p || capabilitiesPath.isPrefixOf p) = true →
      (unregister_handler PROG_ID PROG_NAME (register_handler rp rn r)).keyLive p = false
      ∧ (unregister_handler PROG_ID PROG_NAME (register_handler rp rn r)).val p m = none)
    ∧ (unregister_handler PROG_ID PROG_NAME (register_handler rp rn r)).val
        registeredAppsPath (some PROG_NAME) = none := by
  have d1 : (["Software", PROG_ID] : RegPath).isPrefixOf registeredAppsPath = false := by
    decide
  have d2 : (["Software", "Classes", PROG_ID] : RegPath).isPrefixOf registeredAppsPath
      = false := by decide
  constructor
  · intro hp
    have hpref : (["Software", PROG_ID] : RegPath).isPrefixOf p = true
        ∨ (["Software", "Classes", PROG_ID] : RegPath).isPrefixOf p = true := by
      rcases Bool.or_eq_true_iff.mp hp with hcls | hcap
      · exact Or.inr hcls
      · exact Or.inl (cap_pref_trans hcap)
    constructor
    · rw [unregister_keyLive]
      split_ifs with h1 h2
      · rfl
      · rfl
      · rcases hpref with hs | hc
        · exact absurd hs h1
        · exact absurd hc h2
    · rw [unregister_val, d1, d2]
      simp only [Bool.false_eq_true, if_false]
      split_ifs with h0 h1 h2
      · rfl
      · rfl
      · rfl
      · rcases hpref with hs | hc
        · exact absurd hs h1
        · exact absurd hc h2
  · rw [unregister_val, d1, d2]
    simp only [Bool.false_eq_true, if_false]
    have hlive : (register_handler rp rn r).keyLive registeredAppsPath = true := by
      rw [register_keyLive]
      rw [show registeredAppsPath.isPrefixOf registeredAppsPath = true from by decide]
      simp
    simp [hlive]

/-- C6: `unregister_handler` on a store with no association entries is a
no-op success — every deletion step silently tolerates the missing
entries and the store is observably unchanged. -/
theorem unregister_clean_noop (r : Registry) (h : CleanFor PROG_ID PROG_NAME r)
    (q : RegPath) (m : Option String) :
    (unregister_handler PROG_ID PROG_NAME r).keyLive q = r.keyLive q
    ∧ (unregister_handler PROG_ID PROG_NAME r).val q m = r.val q m := by
  obtain ⟨hsub, hptr⟩ := h
  have d1 : (["Software", PROG_ID] : RegPath).isPrefixOf registeredAppsPath = false := by
    decide
  have d2 : (["Software", "Classes", PROG_ID] : RegPath).isPrefixOf registeredAppsPath
      = false := by decide
  constructor
  · rw [unregister_keyLive]
    split_ifs with h1 h2
    · exact ((hsub q (by rw [h1]; simp)).1).symm
    · exact ((hsub q (by rw [h2]; simp)).1).symm
    · rfl
  · rw [unregister_val, d1, d2]
    simp only [Bool.false_eq_true, if_false]
    split_ifs with h0 h1 h2
    · obtain ⟨hl, hq, hm⟩ := h0
      subst hq
      subst hm
      exact hptr.symm
    · exact (((hsub q (by rw [h1]; simp)).2) m).symm
    · exact (((hsub q (by rw [h2]; simp)).2) m).symm
    · rfl

/-- C6, witness: on the empty store, unregister changes nothing at the
path `["Software"]`. -/
theorem unregister_clean_noop_witness :
    (unregister_handler PROG_ID PROG_NAME emptyRegistry).keyLive ["Software"]
      = emptyRegistry.keyLive ["Software"]
    ∧ (unregister_handler PROG_ID PROG_NAME emptyRegistry).val ["Software"] none
      = emptyRegistry.val ["Software"] none :=
  unregister_clean_noop emptyRegistry
    ⟨fun _ _ => ⟨rfl, fun _ => rfl⟩, rfl⟩ ["Software"] none

end GoogleVoiceDialer
